import Mathlib

/-!
Shallow embedding of the semantic retrieval engine of the repository
(backend/app/services/vector_database.py, class VectorDatabaseService) and
proofs of the behavioural claims made by the specification about it.

Modelling conventions:
* Python float arithmetic is modelled by exact rational arithmetic; the
  real-valued development at the end of the definitions refines the
  normalization step used by faiss.normalize_L2.
* The sentence-transformer embedding model is an opaque parameter
  (embed : String -> List Rat).  For the rational pipeline the parameter
  stands for the composite "encode then L2-normalize", since both stored
  vectors and query vectors pass through faiss.normalize_L2 before they are
  compared.
* Python dicts that carry a document (a text field plus arbitrary metadata)
  are modelled as association lists with string values; only string-valued
  keys (text, type, disorder) are ever inspected by the code under study.
* The pair of on-disk artifacts (index_path, metadata_path) is modelled as a
  Disk record; each artifact is missing, unreadable (present but any read of
  it raises) or readable with known content.
* Exceptions that the Python code can raise while mutating (KeyError from
  doc[\x22text\x22]) are surfaced in a MutationResult record that carries the
  error, the service state and the disk state after the call, matching the
  fact that a Python exception leaves already-performed field assignments in
  place.
-/

/-- Python document dict: a text field plus arbitrary metadata keys, modelled
as an association list from string keys to string values. -/
structure Doc where
  kv : List (String × String)
deriving DecidableEq

/-- Python dict lookup doc.get(key) returning None when absent. -/
def Doc.get (d : Doc) (key : String) : Option String :=
  (d.kv.find? (fun p => p.1 == key)).map Prod.snd

/-- Python dict lookup doc.get(key, dflt). -/
def Doc.getD (d : Doc) (key dflt : String) : String :=
  (d.get key).getD dflt

/-- Modelled from the spec: faiss.IndexFlatIP is external library code (not
under src/).  Per section 4.2 of the spec the Vector Index is an ordered
collection of vectors where position i is the document id; the field d is the
dimension passed to the constructor and xb the stored rows, so ntotal is the
number of rows. -/
structure FaissIndexIP where
  d : Nat
  xb : List (List ℚ)
deriving DecidableEq

/-- Number of stored vectors (the faiss ntotal attribute). -/
def FaissIndexIP.ntotal (i : FaissIndexIP) : Nat :=
  i.xb.length

/-- One on-disk artifact: missing, present but unreadable (reading raises),
or readable with the given content. -/
inductive Artifact (α : Type) where
  | missing
  | unreadable
  | readable (content : α)
deriving DecidableEq

/-- The pair of artifacts written by save_index: the faiss index at
index_path and the JSON metadata array at metadata_path. -/
structure Disk where
  indexFile : Artifact FaissIndexIP
  metadataFile : Artifact (List Doc)
deriving DecidableEq

/-- In-memory state of VectorDatabaseService: the embedding model name, the
model dimension, the optional faiss index and the parallel metadata list. -/
structure VectorDatabaseService where
  model_name : String
  embedding_dim : Nat
  index : Option FaissIndexIP
  document_metadata : List Doc
deriving DecidableEq

/-- Document count of the service: index.ntotal when an index exists, else
0 (the expression used by get_stats). -/
def VectorDatabaseService.ntotal (svc : VectorDatabaseService) : Nat :=
  match svc.index with
  | none => 0
  | some i => i.ntotal

/-- Errors the modelled Python code can raise: KeyError from doc[\x22text\x22]
when a document lacks the text key. -/
inductive PyErr where
  | keyError
deriving DecidableEq

/-- Result of a mutating call: the raised error (none on normal return), and
the service and disk state after the call. -/
structure MutationResult where
  err : Option PyErr
  svc : VectorDatabaseService
  disk : Disk
deriving DecidableEq

/-- The list comprehension texts = [doc[\x22text\x22] for doc in documents]
of build_index and add_documents: KeyError (modelled as none) as soon as a
document lacks the text key. -/
def getTexts : List Doc → Option (List String)
  | [] => some []
  | doc :: rest =>
    match doc.get "text" with
    | none => none
    | some t => (getTexts rest).map (fun ts => t :: ts)

/-- create_embeddings: encode each text with the (opaque, already
normalization-composed) embedding model. -/
def create_embeddings (embed : String → List ℚ) (texts : List String) : List (List ℚ) :=
  texts.map embed

/-- save_index: when an index exists, write it to index_path and dump the
metadata list as JSON to metadata_path, replacing both artifacts; when the
index is None the method returns without touching the disk. -/
def save_index (svc : VectorDatabaseService) (disk : Disk) : Disk :=
  match svc.index with
  | none => disk
  | some i => ⟨Artifact.readable i, Artifact.readable svc.document_metadata⟩

/-- build_index: extract the texts (KeyError propagates before any state
change), embed them, create a fresh IndexFlatIP of the model dimension, add
the normalized embeddings, replace the metadata list with the documents, then
save_index. -/
def build_index (embed : String → List ℚ) (svc : VectorDatabaseService)
    (disk : Disk) (documents : List Doc) : MutationResult :=
  match getTexts documents with
  | none => ⟨some PyErr.keyError, svc, disk⟩
  | some texts =>
    let embeddings := create_embeddings embed texts
    let index : FaissIndexIP := ⟨svc.embedding_dim, embeddings⟩
    let svc' := { svc with index := some index, document_metadata := documents }
    ⟨none, svc', save_index svc' disk⟩

/-- add_documents: return immediately on an empty list; otherwise lazily
create an empty index when none exists (this assignment happens before the
text extraction, so a later KeyError leaves it in place), extract the texts
(KeyError propagates), embed, append the rows to the index and the documents
to the metadata list, then save_index. -/
def add_documents (embed : String → List ℚ) (svc : VectorDatabaseService)
    (disk : Disk) (documents : List Doc) : MutationResult :=
  if documents.isEmpty then ⟨none, svc, disk⟩
  else
    let svc₁ :=
      match svc.index with
      | none => { svc with index := some ⟨svc.embedding_dim, []⟩ }
      | some _ => svc
    match getTexts documents with
    | none => ⟨some PyErr.keyError, svc₁, disk⟩
    | some texts =>
      let embeddings := create_embeddings embed texts
      let idx := svc₁.index.getD ⟨svc.embedding_dim, []⟩
      let idx' : FaissIndexIP := ⟨idx.d, idx.xb ++ embeddings⟩
      let svc' := { svc₁ with index := some idx',
                              document_metadata := svc₁.document_metadata ++ documents }
      ⟨none, svc', save_index svc' disk⟩

/-- load_index: both paths must exist (checked first); then the index file is
read (a failure is caught and leaves the state unchanged); then the metadata
file is read (a failure at this point is caught, but the index assignment has
already happened, so only the index is replaced).  Returns the Python boolean
result together with the state after the call. -/
def load_index (svc : VectorDatabaseService) (disk : Disk) :
    Bool × VectorDatabaseService :=
  match disk.indexFile, disk.metadataFile with
  | Artifact.missing, _ => (false, svc)
  | _, Artifact.missing => (false, svc)
  | Artifact.unreadable, _ => (false, svc)
  | Artifact.readable i, Artifact.unreadable => (false, { svc with index := some i })
  | Artifact.readable i, Artifact.readable m =>
      (true, { svc with index := some i, document_metadata := m })

/-- Inner product of two vectors (cosine similarity once both sides are
unit-normalized). -/
def dot (u v : List ℚ) : ℚ :=
  (List.zipWith (fun a b => a * b) u v).sum

/-- Ranking order of faiss search hits (document id, score): earlier means
strictly larger score, or equal score and smaller id. -/
def hitLE (a b : Nat × ℚ) : Bool :=
  decide (b.2 < a.2 ∨ (a.2 = b.2 ∧ a.1 ≤ b.1))

/-- Scores of every stored row against a query vector, tagged with row ids. -/
def scoredRows (xb : List (List ℚ)) (qe : List ℚ) : List (Nat × ℚ) :=
  xb.enum.map (fun p => (p.1, dot qe p.2))

/-- Modelled from the spec: faiss.IndexFlatIP.search is external library code
(not under src/).  Per section 4.2 of the spec it returns the top k rows by
descending inner-product score with ties broken by ascending document id
(deterministic ordering), and k is clamped to the index size; the sentinel
entries (id -1, score -FLT_MAX) that faiss emits when k exceeds ntotal are
omitted here, matching the fact that the score-threshold filter of the
service discards them for every threshold above -FLT_MAX. -/
def faissTop (idx : FaissIndexIP) (qe : List ℚ) (k : Nat) : List (Nat × ℚ) :=
  ((scoredRows idx.xb qe).mergeSort hitLE).take k

/-- One entry of the list returned by search. -/
structure SearchResult where
  rank : Nat
  score : ℚ
  document_id : Nat
  metadata : Doc
  text : String
deriving DecidableEq

/-- Result-formatting loop of search: enumerate the faiss hits, keep those
with score at or above the threshold, attach rank i+1, and resolve the
document id against the metadata list (falling back to an empty dict and
empty text when the id is out of range). -/
def formatResults (metadata : List Doc) (score_threshold : ℚ)
    (hits : List (Nat × ℚ)) : List SearchResult :=
  hits.enum.filterMap (fun p =>
    if score_threshold ≤ p.2.2 then
      some { rank := p.1 + 1
             score := p.2.2
             document_id := p.2.1
             metadata := if p.2.1 < metadata.length then metadata.getD p.2.1 ⟨[]⟩ else ⟨[]⟩
             text := if p.2.1 < metadata.length
                     then (metadata.getD p.2.1 ⟨[]⟩).getD "text" ""
                     else "" }
    else none)

/-- search: empty result when the index is absent or holds no vectors;
otherwise embed the query (normalization folded into the opaque embedding),
run the faiss top-k search and format the hits. -/
def search (embed : String → List ℚ) (svc : VectorDatabaseService)
    (query : String) (k : Nat) (score_threshold : ℚ) : List SearchResult :=
  match svc.index with
  | none => []
  | some idx =>
    if idx.ntotal = 0 then []
    else formatResults svc.document_metadata score_threshold (faissTop idx (embed query) k)

/-- Python substring test (needle in hay) on strings. -/
def pyIn (needle hay : String) : Bool :=
  hay.toList.tails.any (fun t => needle.toList.isPrefixOf t)

/-- Filtering loop of search_by_disorder: append each matching result and
break as soon as k results have been collected (so with k = 0 the first match
is still appended before the break fires). -/
def takeUpTo {α : Type} (p : α → Bool) (k : Nat) : List α → List α
  | [] => []
  | x :: xs =>
    if p x then
      if k ≤ 1 then [x] else x :: takeUpTo p (k - 1) xs
    else takeUpTo p k xs

/-- search_by_disorder: fetch 2 * k unfiltered results (with the default
score threshold 0.0 of search), then keep, in order, the results whose
disorder metadata field contains the requested disorder case-insensitively,
stopping after k matches. -/
def search_by_disorder (embed : String → List ℚ) (svc : VectorDatabaseService)
    (query disorder : String) (k : Nat) : List SearchResult :=
  let all_results := search embed svc query (k * 2) 0
  takeUpTo (fun r => pyIn disorder.toLower (r.metadata.getD "disorder" "").toLower)
    k all_results

/-- Counter update for the document-type histogram of get_stats, replicating
Python dict insertion-order semantics: bump the existing entry or append a
new one with count 1. -/
def bumpCount (l : List (String × Nat)) (t : String) : List (String × Nat) :=
  match l with
  | [] => [(t, 1)]
  | (k, n) :: rest => if k = t then (k, n + 1) :: rest else (k, n) :: bumpCount rest t

/-- Document-type histogram of get_stats (doc.get of type with default
unknown, counted over the whole metadata list). -/
def docTypeCounts (docs : List Doc) : List (String × Nat) :=
  docs.foldl (fun acc doc => bumpCount acc (doc.getD "type" "unknown")) []

/-- Disorder values of the documents that carry a disorder key, in document
order (the set built by get_stats, before dedup and sort). -/
def disorderVals (docs : List Doc) : List String :=
  docs.filterMap (fun doc => doc.get "disorder")

/-- Boolean lexicographic order on strings used to model Python sorted. -/
def strLE (a b : String) : Bool :=
  decide (a < b) || a == b

/-- Statistics record returned by get_stats; the three Option fields are the
keys that are only present when the metadata list is non-empty. -/
structure VdbStats where
  total_documents : Nat
  embedding_dimension : Nat
  model_name : String
  index_exists : Bool
  document_types : Option (List (String × Nat))
  disorders_covered : Option Nat
  disorder_list : Option (List String)
deriving DecidableEq

/-- get_stats: the base keys are always present; the document-type histogram,
the distinct-disorder count and the sorted distinct disorder list are added
only when the metadata list is non-empty. -/
def get_stats (svc : VectorDatabaseService) : VdbStats :=
  let dl := (disorderVals svc.document_metadata).dedup
  if svc.document_metadata.isEmpty then
    ⟨svc.ntotal, svc.embedding_dim, svc.model_name, svc.index.isSome, none, none, none⟩
  else
    ⟨svc.ntotal, svc.embedding_dim, svc.model_name, svc.index.isSome,
      some (docTypeCounts svc.document_metadata), some dl.length,
      some (dl.mergeSort strLE)⟩

/-- Row-alignment invariant of the spec: the vector count of the index equals
the length of the metadata list. -/
def inSync (svc : VectorDatabaseService) : Prop :=
  svc.ntotal = svc.document_metadata.length

instance (svc : VectorDatabaseService) : Decidable (inSync svc) := by
  unfold inSync; infer_instance

/-- Squared L2 norm of a real vector. -/
def normSqR (v : List ℝ) : ℝ :=
  (v.map (fun x => x * x)).sum

/-- Modelled from faiss fvec_renorm_L2 (external library code, not under
src/): divide each component by the L2 norm, skipping vectors of zero norm;
stated over the reals, refining the float arithmetic of the source. -/
noncomputable def faiss_normalize_L2 (v : List ℝ) : List ℝ :=
  if 0 < normSqR v then v.map (fun x => x / Real.sqrt (normSqR v)) else v

/-- Vectors stored by build_index, real-valued refinement: the texts of the
documents (KeyError as none), each encoded by the raw embedding model and
then passed through faiss.normalize_L2 before index.add; add_documents
appends rows produced by exactly the same composition. -/
noncomputable def built_vectors (rawEmbed : String → List ℝ) (docs : List Doc) :
    Option (List (List ℝ)) :=
  (getTexts docs).map (fun texts => (texts.map rawEmbed).map faiss_normalize_L2)

/-- Opaque stand-in embedding used by concrete instances: every text encodes
to the one-dimensional unit vector. -/
def embed0 : String → List ℚ := fun _ => [1]

/-- A document with a one-letter text. -/
def doc_a : Doc := ⟨[("text", "a")]⟩

/-- A document whose text field is present but empty. -/
def doc_empty_text : Doc := ⟨[("text", "")]⟩

/-- A one-row index holding the unit vector. -/
def idx1 : FaissIndexIP := ⟨1, [[1]]⟩

/-- A freshly constructed service: no index, no metadata. -/
def svc0 : VectorDatabaseService := ⟨"all-MiniLM-L6-v2", 1, none, []⟩

/-- A service holding one indexed document. -/
def svc1 : VectorDatabaseService := ⟨"all-MiniLM-L6-v2", 1, some idx1, [doc_a]⟩

/-- A disk with neither artifact present. -/
def disk_missing : Disk := ⟨Artifact.missing, Artifact.missing⟩

/-- A disk whose index artifact is readable but whose metadata artifact is
present and unreadable (for example corrupt JSON). -/
def disk_partial : Disk := ⟨Artifact.readable idx1, Artifact.unreadable⟩

/-- Raw real-valued stand-in embedding: every text encodes to the
one-dimensional vector with entry 1. -/
def rawEmbed0 : String → List ℝ := fun _ => [1]

theorem getTexts_length {docs : List Doc} {texts : List String}
    (h : getTexts docs = some texts) : texts.length = docs.length := by
  induction docs generalizing texts with
  | nil => simp [getTexts] at h; simp [h.symm]
  | cons d ds ih =>
    simp only [getTexts] at h
    cases hg : d.get "text" with
    | none => rw [hg] at h; exact absurd h (by simp)
    | some t =>
      rw [hg] at h
      cases hr : getTexts ds with
      | none => rw [hr] at h; exact absurd h (by simp)
      | some ts =>
        rw [hr] at h
        simp only [Option.map_some', Option.some.injEq] at h
        subst h
        simp [ih hr]

theorem getTexts_isSome {docs : List Doc}
    (h : ∀ d ∈ docs, (Doc.get d "text").isSome) :
    ∃ texts, getTexts docs = some texts := by
  induction docs with
  | nil => exact ⟨[], rfl⟩
  | cons d ds ih =>
    obtain ⟨t, ht⟩ := Option.isSome_iff_exists.mp (h d (by simp))
    obtain ⟨ts, hts⟩ := ih (fun x hx => h x (by simp [hx]))
    exact ⟨t :: ts, by simp [getTexts, ht, hts]⟩

theorem getTexts_none {docs : List Doc}
    (h : ∃ d ∈ docs, Doc.get d "text" = none) : getTexts docs = none := by
  induction docs with
  | nil => simp at h
  | cons d ds ih =>
    obtain ⟨x, hx, hnone⟩ := h
    rcases List.mem_cons.mp hx with hxd | hxds
    · subst hxd; simp [getTexts, hnone]
    · simp only [getTexts]
      cases hg : d.get "text" with
      | none => rfl
      | some t => simp [ih ⟨x, hxds, hnone⟩]

theorem get_stats_total (svc : VectorDatabaseService) :
    (get_stats svc).total_documents = svc.ntotal := by
  unfold get_stats
  split <;> rfl

/-- Claim C9: add_documents on the empty list is a no-op: for every prior
state it raises nothing and changes neither the service state (index and
metadata store) nor the disk, and in particular leaves get_stats, hence
stats().total_documents, unchanged. -/
theorem C9_add_documents_empty_noop (embed : String → List ℚ)
    (svc : VectorDatabaseService) (disk : Disk) :
    add_documents embed svc disk [] = ⟨none, svc, disk⟩ ∧
    get_stats (add_documents embed svc disk []).svc = get_stats svc := by
  exact ⟨rfl, rfl⟩

/-- Claim C6: searching with an absent index or an index holding zero
documents returns the empty list for every query, k and threshold; and
build_index on the empty document list completes without error, after which
every search still returns the empty list. -/
theorem C6_search_empty_index (embed : String → List ℚ)
    (svc : VectorDatabaseService) (disk : Disk) (q : String) (k : Nat) (thr : ℚ)
    (h : svc.index = none ∨ svc.ntotal = 0) :
    search embed svc q k thr = [] ∧
    (build_index embed svc disk []).err = none ∧
    search embed (build_index embed svc disk []).svc q k thr = [] := by
  refine ⟨?_, rfl, rfl⟩
  rcases h with h | h
  · simp [search, h]
  · cases hidx : svc.index with
    | none => simp [search, hidx]
    | some i =>
      simp only [VectorDatabaseService.ntotal, hidx] at h
      simp [search, hidx, h]

/-- Witness for C6 at a concrete fresh service. -/
theorem C6_search_empty_index_witness :
    search embed0 svc0 "anything" 5 0 = [] :=
  (C6_search_empty_index embed0 svc0 disk_missing "anything" 5 0 (Or.inl rfl)).1

/-- Counterexample to claim C4: from a fresh service and a disk whose index
artifact is readable (one vector) while the metadata artifact is present but
unreadable, load_index returns False yet leaves the service with the newly
loaded non-empty index — a partially restored state, not the empty one the
claim requires. -/
theorem C4_counterexample :
    (load_index svc0 disk_partial).1 = false ∧
    (load_index svc0 disk_partial).2.index = some idx1 ∧
    (load_index svc0 disk_partial).2.ntotal = 1 := by
  exact ⟨rfl, rfl, rfl⟩

/-- Claim C4 as amended: load_index succeeds exactly when both artifacts are
readable, and then restores them in full; when either artifact is missing, or
the index artifact is unreadable, it returns False with the state unchanged;
but when the index artifact is readable and the metadata artifact is
unreadable, it returns False with the index replaced by the loaded one and
the old metadata kept — a partially restored state. -/
theorem C4_amended_load_partial_restore (svc : VectorDatabaseService) (disk : Disk) :
    ((load_index svc disk).1 = true ↔
      (∃ i, disk.indexFile = Artifact.readable i) ∧
      (∃ m, disk.metadataFile = Artifact.readable m)) ∧
    (∀ i m, disk.indexFile = Artifact.readable i →
      disk.metadataFile = Artifact.readable m →
      load_index svc disk = (true, { svc with index := some i, document_metadata := m })) ∧
    (disk.indexFile = Artifact.missing ∨ disk.metadataFile = Artifact.missing ∨
      disk.indexFile = Artifact.unreadable →
      load_index svc disk = (false, svc)) ∧
    (∀ i, disk.indexFile = Artifact.readable i →
      disk.metadataFile = Artifact.unreadable →
      load_index svc disk = (false, { svc with index := some i })) := by
  rcases disk with ⟨fi, fm⟩
  cases fi <;> cases fm <;> simp [load_index]

/-- Witness for the amended C4: loading from a disk with both artifacts
missing fails and leaves the fresh service unchanged. -/
theorem C4_amended_load_partial_restore_witness :
    load_index svc0 disk_missing = (false, svc0) :=
  (C4_amended_load_partial_restore svc0 disk_missing).2.2.1 (Or.inl rfl)

/-- Counterexample to claim C2: the fresh service satisfies the row-alignment
invariant, yet a load_index that fails partway (readable index artifact of
one vector, unreadable metadata artifact) leaves the vector count and the
metadata count out of sync (1 versus 0). -/
theorem C2_counterexample :
    (load_index svc0 disk_partial).1 = false ∧
    inSync svc0 ∧
    ¬ inSync (load_index svc0 disk_partial).2 := by
  refine ⟨rfl, rfl, ?_⟩
  simp [inSync, load_index, svc0, disk_partial, VectorDatabaseService.ntotal,
    FaissIndexIP.ntotal, idx1]

/-- Claim C2 as amended: a completed build_index always establishes the
row-alignment invariant and a failed one leaves the state unchanged;
add_documents preserves the invariant whether it completes or fails; and
load_index re-establishes it only when both artifacts are readable and
mutually consistent (equal counts, as written by save_index) — a mismatched
artifact pair loads out of sync, and a load whose metadata read fails can
leave the loaded index next to the old metadata. -/
theorem C2_amended_row_alignment (embed : String → List ℚ)
    (svc : VectorDatabaseService) (disk : Disk) (docs : List Doc) :
    ((build_index embed svc disk docs).err = none →
      inSync (build_index embed svc disk docs).svc) ∧
    ((build_index embed svc disk docs).err ≠ none →
      (build_index embed svc disk docs).svc = svc) ∧
    (inSync svc → inSync (add_documents embed svc disk docs).svc) ∧
    (∀ i m, disk.indexFile = Artifact.readable i →
      disk.metadataFile = Artifact.readable m → i.ntotal = m.length →
      inSync (load_index svc disk).2) := by
  refine ⟨?_, ?_, ?_, ?_⟩
  · intro herr
    cases hgt : getTexts docs with
    | none => simp [build_index, hgt] at herr
    | some texts =>
      simp [build_index, hgt, inSync, VectorDatabaseService.ntotal,
        FaissIndexIP.ntotal, create_embeddings, getTexts_length hgt]
  · intro herr
    cases hgt : getTexts docs with
    | none => simp [build_index, hgt]
    | some texts => simp [build_index, hgt] at herr
  · intro hsync
    by_cases hd : docs.isEmpty
    · simpa [add_documents, hd] using hsync
    · simp only [inSync, VectorDatabaseService.ntotal, FaissIndexIP.ntotal] at hsync
      cases hidx : svc.index with
      | none =>
        simp only [hidx] at hsync
        cases hgt : getTexts docs with
        | none =>
          simp [add_documents, hd, hidx, hgt, inSync, VectorDatabaseService.ntotal,
            FaissIndexIP.ntotal, hsync.symm]
        | some texts =>
          simp [add_documents, hd, hidx, hgt, inSync, VectorDatabaseService.ntotal,
            FaissIndexIP.ntotal, create_embeddings, getTexts_length hgt, hsync.symm]
      | some i =>
        simp only [hidx] at hsync
        cases hgt : getTexts docs with
        | none =>
          simp [add_documents, hd, hidx, hgt, inSync, VectorDatabaseService.ntotal,
            FaissIndexIP.ntotal, hsync]
        | some texts =>
          simp [add_documents, hd, hidx, hgt, inSync, VectorDatabaseService.ntotal,
            FaissIndexIP.ntotal, create_embeddings, getTexts_length hgt, hsync]
  · intro i m hi hm hlen
    rcases disk with ⟨fi, fm⟩
    simp only at hi hm
    subst hi; subst hm
    simpa [load_index, inSync, VectorDatabaseService.ntotal, FaissIndexIP.ntotal]
      using hlen

/-- Witness for the amended C2: building an index from one document on the
fresh service leaves the vector and metadata counts equal. -/
theorem C2_amended_row_alignment_witness :
    inSync (build_index embed0 svc0 disk_missing [doc_a]).svc :=
  (C2_amended_row_alignment embed0 svc0 disk_missing [doc_a]).1 rfl

/-- Counterexample to claim C3: adding the single document with an empty text
field to the fresh service raises nothing (no ValidationError exists in the
code) and ingests the document, changing stats().total_documents from 0
to 1. -/
theorem C3_counterexample :
    (add_documents embed0 svc0 disk_missing [doc_empty_text]).err = none ∧
    (get_stats (add_documents embed0 svc0 disk_missing [doc_empty_text]).svc).total_documents = 1 ∧
    (get_stats svc0).total_documents = 0 := by
  exact ⟨rfl, rfl, rfl⟩

/-- Claim C3 as amended: build_index and add_documents perform no text
validation — every document whose dict has a text key, even an empty string,
is embedded and ingested, and stats().total_documents grows accordingly; only
a document missing the text key altogether raises an error, a KeyError rather
than a ValidationError, which for build_index occurs before any state or disk
change. -/
theorem C3_amended_no_validation (embed : String → List ℚ)
    (svc : VectorDatabaseService) (disk : Disk) (docs : List Doc) :
    ((∀ d ∈ docs, (Doc.get d "text").isSome) →
      (build_index embed svc disk docs).err = none ∧
      (get_stats (build_index embed svc disk docs).svc).total_documents = docs.length) ∧
    ((∃ d ∈ docs, Doc.get d "text" = none) →
      (build_index embed svc disk docs).err = some PyErr.keyError ∧
      (build_index embed svc disk docs).svc = svc ∧
      (build_index embed svc disk docs).disk = disk) ∧
    (docs ≠ [] → (∀ d ∈ docs, (Doc.get d "text").isSome) →
      (add_documents embed svc disk docs).err = none ∧
      (get_stats (add_documents embed svc disk docs).svc).total_documents
        = svc.ntotal + docs.length) := by
  refine ⟨?_, ?_, ?_⟩
  · intro hall
    obtain ⟨texts, hgt⟩ := getTexts_isSome hall
    constructor
    · simp [build_index, hgt]
    · simp [build_index, hgt, get_stats_total, VectorDatabaseService.ntotal,
        FaissIndexIP.ntotal, create_embeddings, getTexts_length hgt]
  · intro hsome
    have hgt := getTexts_none hsome
    exact ⟨by simp [build_index, hgt], by simp [build_index, hgt], by simp [build_index, hgt]⟩
  · intro hne hall
    obtain ⟨texts, hgt⟩ := getTexts_isSome hall
    have hd : docs.isEmpty = false := by
      cases docs with
      | nil => exact absurd rfl hne
      | cons x xs => rfl
    cases hidx : svc.index with
    | none =>
      constructor
      · simp [add_documents, hd, hidx, hgt]
      · simp [add_documents, hd, hidx, hgt, get_stats_total,
          VectorDatabaseService.ntotal, FaissIndexIP.ntotal, create_embeddings,
          getTexts_length hgt]
    | some i =>
      constructor
      · simp [add_documents, hd, hidx, hgt]
      · simp [add_documents, hd, hidx, hgt, get_stats_total,
          VectorDatabaseService.ntotal, FaissIndexIP.ntotal, create_embeddings,
          getTexts_length hgt]

/-- Witness for the amended C3: building from the one-document list with a
present text key completes without error. -/
theorem C3_amended_no_validation_witness :
    (build_index embed0 svc0 disk_missing [doc_a]).err = none ∧
    (get_stats (build_index embed0 svc0 disk_missing [doc_a]).svc).total_documents = 1 :=
  (C3_amended_no_validation embed0 svc0 disk_missing [doc_a]).1
    (by intro d hd; rw [List.mem_singleton] at hd; subst hd; rfl)

/-- Claim C7: for every built service (one whose index exists), saving and
then loading restores the exact service state, so a search after the round
trip returns the same ranked results — identical document ids and identical
scores — as the same search before the save. -/
theorem C7_save_load_search_round_trip (embed : String → List ℚ)
    (svc : VectorDatabaseService) (disk : Disk) (q : String) (k : Nat) (thr : ℚ)
    (idx : FaissIndexIP) (h : svc.index = some idx) :
    (load_index svc (save_index svc disk)).1 = true ∧
    search embed (load_index svc (save_index svc disk)).2 q k thr
      = search embed svc q k thr := by
  have hd : save_index svc disk
      = ⟨Artifact.readable idx, Artifact.readable svc.document_metadata⟩ := by
    simp [save_index, h]
  have hload : load_index svc (save_index svc disk)
      = (true, { svc with index := some idx,
                          document_metadata := svc.document_metadata }) := by
    rw [hd]; rfl
  have hsvc : { svc with index := some idx,
                         document_metadata := svc.document_metadata } = svc := by
    cases svc with
    | mk mn ed i dm => simp only at h; rw [h]
  rw [hload, hsvc]
  exact ⟨rfl, rfl⟩

/-- Witness for C7 at the one-document service. -/
theorem C7_save_load_search_round_trip_witness :
    (load_index svc1 (save_index svc1 disk_missing)).1 = true :=
  (C7_save_load_search_round_trip embed0 svc1 disk_missing "q" 5 0 idx1 rfl).1

/-- Counterexample to claim C10: a successful add_documents call with the
empty list returns early, so nothing is written — after the call both
artifacts are still missing even though the in-memory index is non-empty. -/
theorem C10_counterexample :
    (add_documents embed0 svc1 disk_missing []).err = none ∧
    (add_documents embed0 svc1 disk_missing []).disk = disk_missing ∧
    disk_missing.indexFile = Artifact.missing ∧
    svc1.ntotal = 1 := by
  exact ⟨rfl, rfl, rfl, rfl⟩

/-- Claim C10 as amended: after every successful build_index call and every
successful add_documents call on a non-empty list, save_index runs at the
end: the new index is written to index_path and the full metadata list to
metadata_path, so the artifact pair reflects the completed mutation; an
add_documents call on the empty list returns early and leaves the disk
untouched. -/
theorem C10_amended_persist_on_mutation (embed : String → List ℚ)
    (svc : VectorDatabaseService) (disk : Disk) (docs : List Doc) :
    ((build_index embed svc disk docs).err = none →
      ∃ i, (build_index embed svc disk docs).svc.index = some i ∧
        (build_index embed svc disk docs).disk
          = ⟨Artifact.readable i,
             Artifact.readable (build_index embed svc disk docs).svc.document_metadata⟩) ∧
    (docs ≠ [] → (add_documents embed svc disk docs).err = none →
      ∃ i, (add_documents embed svc disk docs).svc.index = some i ∧
        (add_documents embed svc disk docs).disk
          = ⟨Artifact.readable i,
             Artifact.readable (add_documents embed svc disk docs).svc.document_metadata⟩) ∧
    (add_documents embed svc disk []).disk = disk := by
  refine ⟨?_, ?_, rfl⟩
  · intro herr
    cases hgt : getTexts docs with
    | none => simp [build_index, hgt] at herr
    | some texts =>
      refine ⟨⟨svc.embedding_dim, create_embeddings embed texts⟩, ?_, ?_⟩
      · simp [build_index, hgt]
      · simp [build_index, hgt, save_index]
  · intro hne herr
    have hd : docs.isEmpty = false := by
      cases docs with
      | nil => exact absurd rfl hne
      | cons x xs => rfl
    cases hgt : getTexts docs with
    | none =>
      cases hidx : svc.index <;> simp [add_documents, hd, hidx, hgt] at herr
    | some texts =>
      cases hidx : svc.index with
      | none =>
        refine ⟨⟨svc.embedding_dim, [] ++ create_embeddings embed texts⟩, ?_, ?_⟩
        · simp [add_documents, hd, hidx, hgt]
        · simp [add_documents, hd, hidx, hgt, save_index]
      | some i =>
        refine ⟨⟨i.d, i.xb ++ create_embeddings embed texts⟩, ?_, ?_⟩
        · simp [add_documents, hd, hidx, hgt]
        · simp [add_documents, hd, hidx, hgt, save_index]

/-- Witness for the amended C10: building from one document writes both
artifacts. -/
theorem C10_amended_persist_on_mutation_witness :
    ∃ i, (build_index embed0 svc0 disk_missing [doc_a]).svc.index = some i ∧
      (build_index embed0 svc0 disk_missing [doc_a]).disk
        = ⟨Artifact.readable i,
           Artifact.readable (build_index embed0 svc0 disk_missing [doc_a]).svc.document_metadata⟩ :=
  (C10_amended_persist_on_mutation embed0 svc0 disk_missing [doc_a]).1 rfl

theorem hitLE_trans (a b c : Nat × ℚ) (hab : hitLE a b = true) (hbc : hitLE b c = true) :
    hitLE a c = true := by
  simp only [hitLE, decide_eq_true_eq] at hab hbc ⊢
  rcases hab with h1 | ⟨h1e, h1i⟩
  · rcases hbc with h2 | ⟨h2e, h2i⟩
    · exact Or.inl (h2.trans h1)
    · exact Or.inl (by rw [← h2e]; exact h1)
  · rcases hbc with h2 | ⟨h2e, h2i⟩
    · exact Or.inl (lt_of_lt_of_le h2 h1e.ge)
    · exact Or.inr ⟨h1e.trans h2e, h1i.trans h2i⟩

theorem hitLE_total (a b : Nat × ℚ) : (hitLE a b || hitLE b a) = true := by
  simp only [hitLE, Bool.or_eq_true, decide_eq_true_eq]
  rcases lt_trichotomy a.2 b.2 with h | h | h
  · exact Or.inr (Or.inl h)
  · rcases Nat.le_total a.1 b.1 with hi | hi
    · exact Or.inl (Or.inr ⟨h, hi⟩)
    · exact Or.inr (Or.inr ⟨h.symm, hi⟩)
  · exact Or.inl (Or.inl h)

theorem scoredRows_fst_pairwise (xb : List (List ℚ)) (qe : List ℚ) :
    List.Pairwise (fun a b : Nat × ℚ => a.1 ≠ b.1) (scoredRows xb qe) := by
  have h2 : List.Pairwise (fun a b : Nat => a ≠ b) (List.map Prod.fst xb.enum) := by
    rw [List.enum_map_fst]; exact List.nodup_range _
  have h1 : List.Pairwise (fun p q : Nat × List ℚ => p.1 ≠ q.1) xb.enum :=
    List.pairwise_map.mp h2
  exact List.pairwise_map.mpr (h1.imp (fun h => h))

theorem faissTop_pairwise (idx : FaissIndexIP) (qe : List ℚ) (k : Nat) :
    List.Pairwise (fun a b : Nat × ℚ => b.2 ≤ a.2 ∧ (a.2 = b.2 → a.1 < b.1))
      (faissTop idx qe k) := by
  have hsorted : List.Pairwise (fun a b => hitLE a b = true)
      ((scoredRows idx.xb qe).mergeSort hitLE) :=
    List.sorted_mergeSort hitLE_trans hitLE_total _
  have hperm := List.mergeSort_perm (scoredRows idx.xb qe) hitLE
  have hne : List.Pairwise (fun a b : Nat × ℚ => a.1 ≠ b.1)
      ((scoredRows idx.xb qe).mergeSort hitLE) :=
    (List.Perm.pairwise_iff (fun h => Ne.symm h) hperm).mpr
      (scoredRows_fst_pairwise idx.xb qe)
  have hco := hsorted.and hne
  have htake := List.Pairwise.sublist (List.take_sublist k _) hco
  refine htake.imp ?_
  intro a b hab
  obtain ⟨hle, hnefst⟩ := hab
  simp only [hitLE, decide_eq_true_eq] at hle
  constructor
  · rcases hle with h | ⟨he, _⟩
    · exact le_of_lt h
    · exact le_of_eq he.symm
  · intro heq
    rcases hle with h | ⟨_, hi⟩
    · exact absurd h (by rw [heq]; exact lt_irrefl _)
    · exact lt_of_le_of_ne hi hnefst

theorem formatResults_pairwise (metadata : List Doc) (thr : ℚ) (hits : List (Nat × ℚ))
    (h : List.Pairwise (fun a b : Nat × ℚ => b.2 ≤ a.2 ∧ (a.2 = b.2 → a.1 < b.1)) hits) :
    List.Pairwise
      (fun r s : SearchResult =>
        s.score ≤ r.score ∧ (r.score = s.score → r.document_id < s.document_id))
      (formatResults metadata thr hits) := by
  unfold formatResults
  rw [List.pairwise_filterMap]
  have henum : List.Pairwise
      (fun p q : Nat × (Nat × ℚ) => q.2.2 ≤ p.2.2 ∧ (p.2.2 = q.2.2 → p.2.1 < q.2.1))
      hits.enum := by
    have h2 : List.Pairwise
        (fun a b : Nat × ℚ => b.2 ≤ a.2 ∧ (a.2 = b.2 → a.1 < b.1))
        (List.map Prod.snd hits.enum) := by
      rw [List.enum_map_snd]; exact h
    exact List.pairwise_map.mp h2
  refine henum.imp ?_
  intro p q hpq r hr s hs
  by_cases hp : thr ≤ p.2.2
  · by_cases hq : thr ≤ q.2.2
    · rw [if_pos hp] at hr
      rw [if_pos hq] at hs
      simp only [Option.mem_def, Option.some.injEq] at hr hs
      subst hr; subst hs
      exact hpq
    · rw [if_neg hq] at hs
      simp at hs
  · rw [if_neg hp] at hr
    simp at hr

theorem formatResults_length_le (metadata : List Doc) (thr : ℚ)
    (hits : List (Nat × ℚ)) :
    (formatResults metadata thr hits).length ≤ hits.length := by
  unfold formatResults
  calc (hits.enum.filterMap _).length ≤ hits.enum.length := List.length_filterMap_le _ _
    _ = hits.length := List.enum_length

theorem faissTop_length (idx : FaissIndexIP) (qe : List ℚ) (k : Nat) :
    (faissTop idx qe k).length = min k idx.ntotal := by
  unfold faissTop
  rw [List.length_take, (List.mergeSort_perm (scoredRows idx.xb qe) hitLE).length_eq]
  simp [scoredRows, FaissIndexIP.ntotal, List.enum_length]

/-- Claim C1: for every service state, query, k at least 1 and score
threshold, the search results are sorted by non-increasing score with equal
scores ordered by strictly ascending document id, and the result list is no
longer than k and no longer than the number of indexed documents. -/
theorem C1_search_ranking (embed : String → List ℚ) (svc : VectorDatabaseService)
    (q : String) (k : Nat) (thr : ℚ) (hk : 1 ≤ k) :
    List.Pairwise
      (fun r s : SearchResult =>
        s.score ≤ r.score ∧ (r.score = s.score → r.document_id < s.document_id))
      (search embed svc q k thr) ∧
    (search embed svc q k thr).length ≤ k ∧
    (search embed svc q k thr).length ≤ svc.ntotal := by
  cases hidx : svc.index with
  | none => simp [search, hidx]
  | some idx =>
    have hsvc : svc.ntotal = idx.ntotal := by
      simp [VectorDatabaseService.ntotal, hidx]
    by_cases h0 : idx.ntotal = 0
    · simp [search, hidx, h0]
    · have hform : search embed svc q k thr
          = formatResults svc.document_metadata thr (faissTop idx (embed q) k) := by
        simp [search, hidx, h0]
      rw [hform, hsvc]
      refine ⟨formatResults_pairwise _ _ _ (faissTop_pairwise idx (embed q) k), ?_, ?_⟩
      · calc (formatResults _ _ _).length
            ≤ (faissTop idx (embed q) k).length := formatResults_length_le _ _ _
          _ = min k idx.ntotal := faissTop_length _ _ _
          _ ≤ k := min_le_left _ _
      · calc (formatResults _ _ _).length
            ≤ (faissTop idx (embed q) k).length := formatResults_length_le _ _ _
          _ = min k idx.ntotal := faissTop_length _ _ _
          _ ≤ idx.ntotal := min_le_right _ _

/-- Witness for C1: the one-document service searched with k = 5 returns at
most five results. -/
theorem C1_search_ranking_witness :
    (search embed0 svc1 "q" 5 0).length ≤ 5 :=
  (C1_search_ranking embed0 svc1 "q" 5 0 (by decide)).2.1

theorem takeUpTo_sublist {α : Type} (p : α → Bool) (k : Nat) (l : List α) :
    (takeUpTo p k l).Sublist l := by
  induction l generalizing k with
  | nil => simp [takeUpTo]
  | cons x xs ih =>
    simp only [takeUpTo]
    by_cases hp : p x
    · rw [if_pos hp]
      by_cases hk : k ≤ 1
      · rw [if_pos hk]
        exact (List.nil_sublist xs).cons₂ x
      · rw [if_neg hk]
        exact (ih (k - 1)).cons₂ x
    · rw [if_neg hp]
      exact (ih k).cons x

theorem takeUpTo_pred {α : Type} (p : α → Bool) (k : Nat) (l : List α) :
    ∀ x ∈ takeUpTo p k l, p x = true := by
  induction l generalizing k with
  | nil => simp [takeUpTo]
  | cons y ys ih =>
    intro x hx
    simp only [takeUpTo] at hx
    by_cases hp : p y
    · rw [if_pos hp] at hx
      by_cases hk : k ≤ 1
      · rw [if_pos hk] at hx
        rw [List.mem_singleton] at hx
        subst hx; exact hp
      · rw [if_neg hk] at hx
        rcases List.mem_cons.mp hx with hxy | hxs
        · subst hxy; exact hp
        · exact ih (k - 1) x hxs
    · rw [if_neg hp] at hx
      exact ih k x hx

theorem takeUpTo_length {α : Type} (p : α → Bool) (k : Nat) (hk : 1 ≤ k)
    (l : List α) : (takeUpTo p k l).length ≤ k := by
  induction l generalizing k with
  | nil => simp [takeUpTo]
  | cons x xs ih =>
    simp only [takeUpTo]
    by_cases hp : p x
    · rw [if_pos hp]
      by_cases hk1 : k ≤ 1
      · rw [if_pos hk1]; simpa using hk
      · rw [if_neg hk1]
        have h2 : 2 ≤ k := by omega
        have := ih (k - 1) (by omega)
        simp only [List.length_cons]
        omega
    · rw [if_neg hp]
      exact ih k hk

/-- Claim C5: every result of search_by_disorder has a disorder metadata
field whose lowercase form contains the lowercased requested disorder as a
substring, the returned list has length at most k, and every returned result
is drawn from the top 2k unfiltered search results (searched with the default
score threshold 0). -/
theorem C5_search_by_disorder_filter (embed : String → List ℚ)
    (svc : VectorDatabaseService) (q disorder : String) (k : Nat) (hk : 1 ≤ k) :
    (∀ r ∈ search_by_disorder embed svc q disorder k,
      pyIn disorder.toLower ((r.metadata.getD "disorder" "").toLower) = true) ∧
    (search_by_disorder embed svc q disorder k).length ≤ k ∧
    (∀ r ∈ search_by_disorder embed svc q disorder k,
      r ∈ search embed svc q (k * 2) 0) := by
  simp only [search_by_disorder]
  refine ⟨?_, takeUpTo_length _ k hk _, ?_⟩
  · intro r hr
    exact takeUpTo_pred _ k _ r hr
  · intro r hr
    exact (takeUpTo_sublist _ k _).subset hr

/-- Witness for C5: the one-document service filtered with k = 1 returns at
most one result. -/
theorem C5_search_by_disorder_filter_witness :
    (search_by_disorder embed0 svc1 "q" "dep" 1).length ≤ 1 :=
  (C5_search_by_disorder_filter embed0 svc1 "q" "dep" 1 (by decide)).2.1

theorem normSqR_cons (x : ℝ) (xs : List ℝ) : normSqR (x :: xs) = x * x + normSqR xs := by
  simp [normSqR]

theorem normSqR_map_div (w : List ℝ) (c : ℝ) :
    normSqR (w.map (fun x => x / c)) = normSqR w / c ^ 2 := by
  induction w with
  | nil => simp [normSqR]
  | cons x xs ih =>
    rw [List.map_cons, normSqR_cons, normSqR_cons, ih, pow_two, div_mul_div_comm,
      div_add_div_same]

theorem faiss_normalize_L2_normSq {v : List ℝ} (h : 0 < normSqR v) :
    normSqR (faiss_normalize_L2 v) = 1 := by
  unfold faiss_normalize_L2
  rw [if_pos h, normSqR_map_div, Real.sq_sqrt h.le, div_self (ne_of_gt h)]

/-- Claim C8: every vector stored in the index by build_index (and by
add_documents, which applies the identical encode-then-normalize composition
before index.add) is L2-normalized: its norm differs from 1 by less than
1e-5 — in exact real arithmetic it is exactly 1 — provided the raw embedding
of each text is non-zero (faiss normalize_L2 skips zero-norm vectors). -/
theorem C8_stored_vectors_normalized (rawEmbed : String → List ℝ) (docs : List Doc)
    (vs : List (List ℝ)) (hvs : built_vectors rawEmbed docs = some vs)
    (hnz : ∀ t, 0 < normSqR (rawEmbed t)) :
    ∀ v ∈ vs, |Real.sqrt (normSqR v) - 1| < 1 / 100000 := by
  intro v hv
  unfold built_vectors at hvs
  cases hgt : getTexts docs with
  | none => rw [hgt] at hvs; simp at hvs
  | some texts =>
    rw [hgt] at hvs
    simp only [Option.map_some', Option.some.injEq] at hvs
    subst hvs
    rw [List.mem_map] at hv
    obtain ⟨w, hw, hwv⟩ := hv
    rw [List.mem_map] at hw
    obtain ⟨t, ht, hwt⟩ := hw
    subst hwv
    subst hwt
    rw [faiss_normalize_L2_normSq (hnz t), Real.sqrt_one, sub_self, abs_zero]
    norm_num

/-- Witness for C8 at the concrete raw embedding sending every text to the
vector with single entry 1. -/
theorem C8_stored_vectors_normalized_witness :
    |Real.sqrt (normSqR (faiss_normalize_L2 [(1 : ℝ)])) - 1| < 1 / 100000 :=
  C8_stored_vectors_normalized rawEmbed0 [doc_a] [faiss_normalize_L2 [(1 : ℝ)]]
    rfl (by intro t; simp [normSqR, rawEmbed0])
    (faiss_normalize_L2 [(1 : ℝ)]) (List.mem_singleton.mpr rfl)
